import Mathlib

/-
  Shallow embedding of the tickr_backend core (management/models.py and
  management/views.py): the timer engine (TimeEntryViewSet.start/stop/active),
  the reporting view (ReportView.get), the team invitation endpoints
  (get_invitation_details, accept_invitation, decline_invitation) and the
  member listing (TeamViewSet.list_members).

  Timestamps are modelled as natural numbers (seconds); durations as integers
  (Python timedelta arithmetic on datetimes).  Database tables are lists of
  rows; the list order stands for the queryset iteration order.  Django's
  QuerySet.update performs a direct SQL UPDATE and does NOT call the model's
  save() method; the embedding mirrors this distinction faithfully.
-/

namespace Tickr

/-- Models the (external) auth user: id plus the flags and fields the core reads. -/
structure AppUser where
  id : Nat
  email : String
  is_staff : Bool
deriving Repr, DecidableEq

/-- Models management.models.Team. -/
structure Team where
  id : Nat
  name : String
  owner : Nat
  created_at : Nat
deriving Repr, DecidableEq

/-- Models management.models.TeamMember: join row (team, user, joined_at). -/
structure TeamMember where
  id : Nat
  team : Nat
  user : Nat
  joined_at : Nat
deriving Repr, DecidableEq

/-- Models management.models.Project (fields the core logic reads). -/
structure Project where
  id : Nat
  name : String
  creator : Nat
  team : Option Nat
deriving Repr, DecidableEq

/-- Models management.models.TimeEntry. -/
structure TimeEntry where
  id : Nat
  user : Nat
  project : Option Nat
  description : String
  start_time : Nat
  end_time : Option Nat
  duration : Option Int
  is_running : Bool
deriving Repr, DecidableEq

/-- Models management.models.TeamInvitation. -/
structure TeamInvitation where
  id : Nat
  team : Nat
  email : String
  token : Nat
  status : String
  created_at : Nat
  expires_at : Nat
  accepted_at : Option Nat
deriving Repr, DecidableEq

/-- The relational store: one list of rows per table. -/
structure DB where
  users : List AppUser
  teams : List Team
  teamMembers : List TeamMember
  projects : List Project
  entries : List TimeEntry
  invitations : List TeamInvitation
deriving Repr, DecidableEq

/-- Error taxonomy of the endpoints (HTTP 404 / 403 / 400-invalid / 400-conflict). -/
inductive ApiErr
  | notFound
  | forbidden
  | invalidState
  | conflict
deriving Repr, DecidableEq

/-- Models TimeEntry.save (models.py lines 107-110): whenever end_time is set
(start_time is a non-null field, hence always truthy), duration is recomputed
as end_time - start_time before the row is written. -/
def TimeEntry.save (e : TimeEntry) : TimeEntry :=
  match e.end_time with
  | some t => { e with duration := some ((t : Int) - (e.start_time : Int)) }
  | none => e

/-- Models TeamInvitation.is_valid (models.py 149-150):
status == 'pending' and expires_at > now. -/
def TeamInvitation.is_valid (inv : TeamInvitation) (now : Nat) : Bool :=
  inv.status == "pending" && now < inv.expires_at

/-- Models Project.objects.get(id=project_id). -/
def getProject (db : DB) (pid : Nat) : Option Project :=
  db.projects.find? (fun p => p.id == pid)

/-- Models project.team.owner == request.user (FK lookup into Team). -/
def teamOwnerIs (db : DB) (tid uid : Nat) : Bool :=
  db.teams.any (fun t => t.id == tid && t.owner == uid)

/-- Models TeamMember.objects.filter(team=..., user=...).exists(). -/
def isTeamMember (db : DB) (tid uid : Nat) : Bool :=
  db.teamMembers.any (fun m => m.team == tid && m.user == uid)

/-- Models TimeEntry.objects.filter(user=u, is_running=True)
            .update(end_time=now, is_running=False)  (views.py 384-387).
A bulk UPDATE: it bypasses TimeEntry.save, so duration is left untouched. -/
def forceCloseRunning (now : Nat) (u : Nat) (es : List TimeEntry) : List TimeEntry :=
  es.map (fun e =>
    if e.user == u && e.is_running then
      { e with end_time := some now, is_running := false }
    else e)

/-- Models TimeEntryViewSet.active (views.py 360-370): the first row of
filter(user=u, is_running=True), or none. -/
def active (db : DB) (u : Nat) : Option TimeEntry :=
  (db.entries.filter (fun e => e.user == u && e.is_running)).head?

/-- Models TimeEntryViewSet.start (views.py 372-426).  Steps in source order:
1. unconditionally force-close any running entry of the caller (bulk update);
2. if project_id given, resolve it (404 when absent);
3. permission gate: creator, staff, or (team set and (team owner or member));
4. create the new running entry (objects.create goes through save). -/
def start (db : DB) (now : Nat) (user : AppUser) (project_id : Option Nat)
    (description : String) (newId : Nat) : DB × Except ApiErr TimeEntry :=
  let db1 : DB := { db with entries := forceCloseRunning now user.id db.entries }
  let created : Option Nat → DB × Except ApiErr TimeEntry := fun proj =>
    let e := TimeEntry.save
      { id := newId, user := user.id, project := proj, description := description,
        start_time := now, end_time := none, duration := none, is_running := true }
    ({ db1 with entries := db1.entries ++ [e] }, .ok e)
  -- The force-close only rewrote the entries table, so the project, team and
  -- membership lookups below read the same rows before and after it; they are
  -- written against db (db1.projects, db1.teams, db1.teamMembers are db's).
  match project_id with
  | none => created none
  | some pid =>
    match getProject db pid with
    | none => (db1, .error .notFound)
    | some project =>
      if project.creator == user.id || user.is_staff then
        created (some project.id)
      else
        match project.team with
        | some tid =>
          if teamOwnerIs db tid user.id || isTeamMember db tid user.id then
            created (some project.id)
          else (db1, .error .forbidden)
        | none => (db1, .error .forbidden)

/-- Writes back the entry found by filter(...).first() after mutating it:
the first row of the list satisfying (user, is_running) is replaced by its
saved, stopped version; every other row is untouched. -/
def closeFirstRunning (now : Nat) (u : Nat) : List TimeEntry → List TimeEntry
  | [] => []
  | e :: rest =>
    if e.user == u && e.is_running then
      TimeEntry.save { e with end_time := some now, is_running := false } :: rest
    else
      e :: closeFirstRunning now u rest

/-- Models TimeEntryViewSet.stop (views.py 428-446): find the running entry
(400 when none), set end_time = now, is_running = False, save (recomputing
duration), return the updated entry. -/
def stop (db : DB) (now : Nat) (u : Nat) : DB × Except ApiErr TimeEntry :=
  match (db.entries.filter (fun e => e.user == u && e.is_running)).head? with
  | none => (db, .error .invalidState)
  | some e =>
    let e2 := TimeEntry.save { e with end_time := some now, is_running := false }
    ({ db with entries := closeFirstRunning now u db.entries }, .ok e2)

/-- Models TeamInvitation.objects.get(token=token) (tokens are unique). -/
def findInvitation (db : DB) (token : Nat) : Option TeamInvitation :=
  db.invitations.find? (fun i => i.token == token)

/-- Writes back a mutated invitation row: the first row with the same (unique)
token is replaced; every other row is untouched (invitation.save()). -/
def saveInvitation (inv : TeamInvitation) : List TeamInvitation → List TeamInvitation
  | [] => []
  | i :: rest =>
    if i.token == inv.token then inv :: rest else i :: saveInvitation inv rest

/-- Models get_invitation_details (views.py 613-631): 404 when no such token;
400 ("expired or no longer valid") when the invitation fails is_valid;
otherwise the full invitation detail is returned. -/
def get_invitation_details (db : DB) (now : Nat) (token : Nat) :
    Except ApiErr TeamInvitation :=
  match findInvitation db token with
  | none => .error .notFound
  | some inv =>
    if inv.is_valid now then .ok inv else .error .invalidState

/-- Models accept_invitation (views.py 634-670): 404 unknown token; 400 when
not is_valid(); 400 conflict when the caller is already a member; otherwise
get_or_create the TeamMember row, then set status = 'accepted' and
accepted_at = now on the invitation.  The caller's email is never consulted. -/
def accept_invitation (db : DB) (now : Nat) (user : AppUser) (token : Nat)
    (newMemberId : Nat) : DB × Except ApiErr Unit :=
  match findInvitation db token with
  | none => (db, .error .notFound)
  | some inv =>
    if !(inv.is_valid now) then (db, .error .invalidState)
    else if isTeamMember db inv.team user.id then
      (db, .error .conflict)
    else
      let members2 :=
        if isTeamMember db inv.team user.id then
          db.teamMembers
        else
          db.teamMembers ++
            [{ id := newMemberId, team := inv.team, user := user.id, joined_at := now }]
      let inv2 := { inv with status := "accepted", accepted_at := some now }
      ({ db with teamMembers := members2,
                 invitations := saveInvitation inv2 db.invitations }, .ok ())

/-- Models decline_invitation (views.py 673-688): 404 unknown token; otherwise
status = 'declined' is stored unconditionally (no validity or status check). -/
def decline_invitation (db : DB) (token : Nat) : DB × Except ApiErr Unit :=
  match findInvitation db token with
  | none => (db, .error .notFound)
  | some inv =>
    ({ db with invitations := saveInvitation { inv with status := "declined" } db.invitations },
     .ok ())

/-- Row of the member listing (username/email presentation fields, copied
verbatim from the user row, are omitted; id is -1 for the synthesized owner). -/
structure MemberInfo where
  id : Int
  user_id : Nat
  role : String
  joined_at : Nat
deriving Repr, DecidableEq

/-- Models TeamViewSet.list_members (views.py 147-190): iterate the team's
TeamMember rows in queryset order, mapping the owner's row (if any) to a
role='owner' entry with joined_at = team.created_at and every other row to a
role='member' entry; when no row belongs to the owner, a synthetic owner
entry with id -1 is inserted at the front. -/
def list_members (db : DB) (team : Team) : List MemberInfo :=
  let members := db.teamMembers.filter (fun m => m.team == team.id)
  let member_data := members.map (fun m =>
    if m.user == team.owner then
      ({ id := (m.id : Int), user_id := team.owner, role := "owner",
         joined_at := team.created_at } : MemberInfo)
    else
      { id := (m.id : Int), user_id := m.user, role := "member",
        joined_at := m.joined_at })
  if members.any (fun m => m.user == team.owner) then member_data
  else
    { id := -1, user_id := team.owner, role := "owner",
      joined_at := team.created_at } :: member_data

/-- One row of the report's per-project breakdown. -/
structure BreakdownRow where
  project_name : String
  hours_str : String
  total_seconds : Int
deriving Repr, DecidableEq

/-- The report payload. -/
structure ReportData where
  total_time : String
  project_breakdown : List BreakdownRow
deriving Repr, DecidableEq

/-- Python %02d zero padding (the width-2 case: a sign already fills the pad). -/
def pad2 (n : Int) : String :=
  let s := toString n
  if s.length < 2 then "0" ++ s else s

/-- Models the h, m, s = divmod chain plus the formatted string
f-string of views.py 460-462 / 474-478; hours are unbounded.
Int.ediv and Int.emod agree with Python divmod for the positive divisors used. -/
def fmtHMS (total : Int) : String :=
  let h := total.ediv 3600
  let r := total.emod 3600
  let m := r.ediv 60
  let s := r.emod 60
  pad2 h ++ ":" ++ pad2 m ++ ":" ++ pad2 s

/-- Models the SQL values('project__name') join key: None when the entry has
no project, otherwise the referenced project's name. -/
def projectNameKey (db : DB) (e : TimeEntry) : Option String :=
  e.project.bind (fun pid => (getProject db pid).map (fun p => p.name))

/-- Models `stat['project__name'] or 'No Project'`: Python `or` also maps the
empty string to the fallback label. -/
def orNoProject (k : Option String) : String :=
  match k with
  | none => "No Project"
  | some s => if s == "" then "No Project" else s

/-- Distinct group-by keys in order of first appearance. -/
def groupKeys (ks : List (Option String)) : List (Option String) :=
  ks.foldl (fun acc k => if acc.contains k then acc else acc ++ [k]) []

/-- Insertion into a list sorted by descending total_seconds. -/
def insertByDesc (r : BreakdownRow) : List BreakdownRow → List BreakdownRow
  | [] => [r]
  | x :: xs =>
    if r.total_seconds > x.total_seconds then r :: x :: xs else x :: insertByDesc r xs

/-- Models order_by('-hours'): sort the breakdown by descending duration sum. -/
def sortByDesc (l : List BreakdownRow) : List BreakdownRow :=
  l.foldr insertByDesc []

/-- Models the report queryset
TimeEntry.objects.filter(user=u, end_time__isnull=False). -/
def reportEntries (db : DB) (u : Nat) : List TimeEntry :=
  db.entries.filter (fun e => e.user == u && e.end_time.isSome)

/-- Models values('project__name').annotate(hours=Sum('duration')): one row
per distinct project-name key, carrying the label (name or 'No Project'), the
formatted group sum and its raw seconds (SQL Sum skips NULL durations; an
all-NULL or empty sum maps to 0). -/
def breakdownStats (db : DB) (u : Nat) : List BreakdownRow :=
  (groupKeys ((reportEntries db u).map (fun e => projectNameKey db e))).map (fun k =>
    let secs : Int :=
      (((reportEntries db u).filter (fun e => projectNameKey db e == k)).filterMap
        (fun e => e.duration)).sum
    { project_name := orNoProject k, hours_str := fmtHMS secs, total_seconds := secs })

/-- Models ReportView.get (views.py 450-485): over the caller's entries with
non-null end_time, total = Sum(duration) formatted HH:MM:SS; breakdown =
the per-project-name stats ordered by descending sum (order_by('-hours')). -/
def report (db : DB) (u : Nat) : ReportData :=
  { total_time := fmtHMS (((reportEntries db u).filterMap (fun e => e.duration)).sum),
    project_breakdown := sortByDesc (breakdownStats db u) }

/-- Number of running entries of a user (cardinality of
filter(user=u, is_running=True)). -/
def runningCount (db : DB) (u : Nat) : Nat :=
  (db.entries.filter (fun e => e.user == u && e.is_running)).length

/-- The single-running-timer invariant: at most one running entry per user. -/
def RunningInv (db : DB) : Prop := ∀ u, runningCount db u ≤ 1

/-- A timer-engine mutation (the read-only active endpoint does not change
state), with the ambient request data as payload. -/
inductive TimerOp where
  | startOp (now : Nat) (user : AppUser) (project_id : Option Nat)
      (description : String) (newId : Nat)
  | stopOp (now : Nat) (u : Nat)
deriving Repr

/-- State reached after one timer operation. -/
def applyTimerOp (db : DB) : TimerOp → DB
  | .startOp now user pid d nid => (start db now user pid d nid).1
  | .stopOp now u => (stop db now u).1

/-- State reached after a sequence of timer operations. -/
def runTimerOps (db : DB) (ops : List TimerOp) : DB :=
  ops.foldl applyTimerOp db

/-- Concrete state: user 1 has exactly one running entry, started at 100. -/
def dbRun : DB :=
  { users := [], teams := [], teamMembers := [], projects := [],
    entries :=
      [{ id := 1, user := 1, project := none, description := "w",
         start_time := 100, end_time := none, duration := none, is_running := true }],
    invitations := [] }

/-- Concrete non-staff caller, user id 1. -/
def alice : AppUser := { id := 1, email := "alice@example.com", is_staff := false }

/-- Concrete completed 90-second entry (start 500, stop 590). -/
def dbNinety : DB :=
  { users := [], teams := [], teamMembers := [], projects := [],
    entries :=
      [{ id := 1, user := 1, project := none, description := "w",
         start_time := 500, end_time := some 590, duration := some 90,
         is_running := false }],
    invitations := [] }

/-- Concrete team: id 1, owned by user 1, created at 10. -/
def teamEng : Team := { id := 1, name := "Eng", owner := 1, created_at := 10 }

/-- Concrete membership table where user 2's row precedes the owner's own
explicit row (queryset order). -/
def dbMembers : DB :=
  { users := [], teams := [teamEng],
    teamMembers :=
      [{ id := 5, team := 1, user := 2, joined_at := 20 },
       { id := 6, team := 1, user := 1, joined_at := 30 }],
    projects := [], entries := [], invitations := [] }

/-- Concrete expired-but-still-pending invitation (expires_at 50). -/
def invExpired : TeamInvitation :=
  { id := 1, team := 1, email := "p@q.r", token := 7, status := "pending",
    created_at := 0, expires_at := 50, accepted_at := none }

/-- Store holding only the expired invitation. -/
def dbInvExpired : DB :=
  { users := [], teams := [teamEng], teamMembers := [], projects := [],
    entries := [], invitations := [invExpired] }

/-- Concrete invitation that has already been accepted. -/
def invAccepted : TeamInvitation :=
  { id := 2, team := 1, email := "m@n.o", token := 9, status := "accepted",
    created_at := 0, expires_at := 1000, accepted_at := some 10 }

/-- Store holding only the accepted invitation. -/
def dbInvAccepted : DB :=
  { users := [], teams := [teamEng], teamMembers := [], projects := [],
    entries := [], invitations := [invAccepted] }

/-- Concrete pending, unexpired invitation to team 1. -/
def invPending : TeamInvitation :=
  { id := 3, team := 1, email := "v@w.x", token := 11, status := "pending",
    created_at := 0, expires_at := 1000, accepted_at := none }

/-- Store holding only the pending invitation. -/
def dbInvPending : DB :=
  { users := [], teams := [teamEng], teamMembers := [], projects := [],
    entries := [], invitations := [invPending] }

/-- Concrete caller distinct from any member, user id 3. -/
def bob : AppUser := { id := 3, email := "bob@example.com", is_staff := false }

/-- Concrete project without a team, created by user 2. -/
def projNoTeam : Project := { id := 4, name := "Solo", creator := 2, team := none }

/-- Store holding the team-less project (and no team/membership rows). -/
def dbProj : DB :=
  { users := [], teams := [], teamMembers := [], projects := [projNoTeam],
    entries := [], invitations := [] }

/-- Unfolding forceCloseRunning over a cons cell. -/
theorem forceCloseRunning_cons (now u : Nat) (e : TimeEntry) (es : List TimeEntry) :
    forceCloseRunning now u (e :: es) =
      (if e.user == u && e.is_running then
        { e with end_time := some now, is_running := false } else e) ::
        forceCloseRunning now u es := rfl

/-- Unfolding closeFirstRunning over a cons cell. -/
theorem closeFirstRunning_cons (now u : Nat) (e : TimeEntry) (es : List TimeEntry) :
    closeFirstRunning now u (e :: es) =
      if e.user == u && e.is_running then
        TimeEntry.save { e with end_time := some now, is_running := false } :: es
      else e :: closeFirstRunning now u es := rfl

/-- After the bulk force-close, the caller has no running entry left. -/
theorem filter_forceClose_self (now u : Nat) (es : List TimeEntry) :
    (forceCloseRunning now u es).filter (fun e => e.user == u && e.is_running) = [] := by
  induction es with
  | nil => rfl
  | cons e rest ih =>
    rw [forceCloseRunning_cons]
    by_cases h : (e.user == u && e.is_running) = true
    · rw [if_pos h, List.filter_cons]
      simpa using ih
    · rw [if_neg h, List.filter_cons]
      simp only [Bool.not_eq_true] at h
      simpa [h] using ih

/-- The force-close does not change which rows run for any other user. -/
theorem filter_forceClose_other (now u u' : Nat) (hne : u' ≠ u) (es : List TimeEntry) :
    (forceCloseRunning now u es).filter (fun e => e.user == u' && e.is_running) =
      es.filter (fun e => e.user == u' && e.is_running) := by
  induction es with
  | nil => rfl
  | cons e rest ih =>
    rw [forceCloseRunning_cons]
    by_cases h : (e.user == u && e.is_running) = true
    · have h' : e.user = u ∧ e.is_running = true := by simpa using h
      have h1 : (e.user == u') = false := by
        simp only [h'.1, beq_eq_false_iff_ne, ne_eq]
        exact fun hh => hne hh.symm
      rw [if_pos h]
      simp only [List.filter_cons]
      simp [h1, ih]
    · rw [if_neg h]
      simp only [List.filter_cons]
      simp [ih]

/-- Rows of other users are untouched by the force-close. -/
theorem filter_ne_forceClose (now u : Nat) (es : List TimeEntry) :
    (forceCloseRunning now u es).filter (fun e => !(e.user == u)) =
      es.filter (fun e => !(e.user == u)) := by
  induction es with
  | nil => rfl
  | cons e rest ih =>
    rw [forceCloseRunning_cons]
    by_cases h : (e.user == u && e.is_running) = true
    · have h' : e.user = u ∧ e.is_running = true := by simpa using h
      rw [if_pos h]
      simp only [List.filter_cons]
      simp [h'.1, ih]
    · rw [if_neg h]
      simp only [List.filter_cons]
      simp [ih]

/-- Stopping via closeFirstRunning never increases any user's running count. -/
theorem filter_closeFirst_le (now u u' : Nat) (es : List TimeEntry) :
    ((closeFirstRunning now u es).filter (fun e => e.user == u' && e.is_running)).length ≤
      (es.filter (fun e => e.user == u' && e.is_running)).length := by
  induction es with
  | nil => exact Nat.le_refl _
  | cons e rest ih =>
    rw [closeFirstRunning_cons]
    by_cases h : (e.user == u && e.is_running) = true
    · rw [if_pos h]
      simp only [List.filter_cons, TimeEntry.save]
      by_cases hp : (e.user == u' && e.is_running) = true
      · simp [hp]
      · simp only [Bool.not_eq_true] at hp
        simp [hp]
    · rw [if_neg h]
      simp only [List.filter_cons]
      by_cases hp : (e.user == u' && e.is_running) = true
      · simpa [hp] using ih
      · simp only [Bool.not_eq_true] at hp
        simpa [hp] using ih

/-- Rows of other users are untouched when the first running row is stopped. -/
theorem filter_ne_closeFirst (now u : Nat) (es : List TimeEntry) :
    (closeFirstRunning now u es).filter (fun e => !(e.user == u)) =
      es.filter (fun e => !(e.user == u)) := by
  induction es with
  | nil => rfl
  | cons e rest ih =>
    rw [closeFirstRunning_cons]
    by_cases h : (e.user == u && e.is_running) = true
    · have h' : e.user = u ∧ e.is_running = true := by simpa using h
      rw [if_pos h]
      simp only [List.filter_cons, TimeEntry.save]
      simp [h'.1]
    · rw [if_neg h]
      simp only [List.filter_cons]
      simp [ih]

/-- Splitting the running filter into a user filter then a running filter. -/
theorem filter_user_running (u : Nat) (es : List TimeEntry) :
    es.filter (fun e => e.user == u && e.is_running) =
      (es.filter (fun e => e.user == u)).filter (fun e => e.is_running) := by
  induction es with
  | nil => rfl
  | cons e rest ih =>
    by_cases h1 : (e.user == u) = true <;> by_cases h2 : e.is_running = true <;>
      simp [List.filter_cons, h1, h2, ih]

/-- The entries table after start is the force-closed table, possibly with the
one new running entry appended (depending on the validation outcome). -/
theorem start_entries_cases (db : DB) (now : Nat) (user : AppUser)
    (pid : Option Nat) (d : String) (nid : Nat) :
    (start db now user pid d nid).1.entries = forceCloseRunning now user.id db.entries
    ∨ ∃ proj, (start db now user pid d nid).1.entries =
        forceCloseRunning now user.id db.entries ++
          [{ id := nid, user := user.id, project := proj, description := d,
             start_time := now, end_time := none, duration := none, is_running := true }] := by
  unfold start
  cases pid with
  | none => exact Or.inr ⟨none, rfl⟩
  | some p =>
    cases hp : getProject db p with
    | none => simp [hp]
    | some project =>
      by_cases h1 : (project.creator == user.id || user.is_staff) = true
      · exact Or.inr ⟨some project.id, by simp [hp, h1, TimeEntry.save]⟩
      · cases ht : project.team with
        | none => simp [hp, h1, ht]
        | some tid =>
          by_cases h2 : (teamOwnerIs db tid user.id || isTeamMember db tid user.id) = true
          · exact Or.inr ⟨some project.id, by simp [hp, h1, ht, h2, TimeEntry.save]⟩
          · simp [hp, h1, ht, h2]

/-- C1: evaluation of start at the failing input (user 1 has a running entry
started at 100; start is called at 200 with no project).  The old entry does
end up with end_time = 200 and is_running = false, and active() returns the
newly created entry, but its duration is NOT recomputed: the force-close is a
bulk UPDATE that bypasses TimeEntry.save, leaving duration NULL — contradicting
the claim (and the model's own save semantics) that duration becomes
end_time - start_time, non-null. -/
theorem c1_force_close_skips_duration :
    (start dbRun 200 alice none "x" 2).1.entries =
      [⟨1, 1, none, "w", 100, some 200, none, false⟩,
       ⟨2, 1, none, "x", 200, none, none, true⟩]
    ∧ (start dbRun 200 alice none "x" 2).2 =
        Except.ok ⟨2, 1, none, "x", 200, none, none, true⟩
    ∧ active (start dbRun 200 alice none "x" 2).1 1 =
        some ⟨2, 1, none, "x", 200, none, none, true⟩ :=
  ⟨rfl, rfl, rfl⟩

/-- C3 counterexample: user 1 has a running entry; start is called with
project_id 99, which does not exist, and fails NotFound — yet the state has
changed: the previously running entry has been force-closed (is_running is
now false), refuting "no state is changed" on error. -/
theorem c3_counterexample_failed_start_mutates :
    (start dbRun 200 alice (some 99) "x" 2).2 = Except.error ApiErr.notFound
    ∧ (start dbRun 200 alice (some 99) "x" 2).1 ≠ dbRun
    ∧ ((start dbRun 200 alice (some 99) "x" 2).1.entries.head?).map (fun e => e.is_running)
        = some false :=
  ⟨rfl, by decide, rfl⟩

/-- C3 amended: when start(user, project_id, description) fails with NotFound
or Forbidden, no new entry is created (the row count is unchanged), but the
operation is not atomic: the unconditional force-close has already been
applied, so the resulting state is the input state with every running entry of
the caller closed, and the caller has no running entry afterwards. -/
theorem c3_start_error_state (db : DB) (now : Nat) (user : AppUser)
    (pid : Nat) (d : String) (nid : Nat) (err : ApiErr)
    (h : (start db now user (some pid) d nid).2 = .error err) :
    (start db now user (some pid) d nid).1 =
      { db with entries := forceCloseRunning now user.id db.entries }
    ∧ runningCount (start db now user (some pid) d nid).1 user.id = 0
    ∧ (start db now user (some pid) d nid).1.entries.length = db.entries.length := by
  have h1 : (start db now user (some pid) d nid).1 =
      { db with entries := forceCloseRunning now user.id db.entries } := by
    unfold start at h ⊢
    cases hp : getProject db pid with
    | none => simp [hp]
    | some project =>
      by_cases hc : (project.creator == user.id || user.is_staff) = true
      · simp [hp, hc] at h
      · cases ht : project.team with
        | none => simp [hp, hc, ht]
        | some tid =>
          by_cases h2 : (teamOwnerIs db tid user.id || isTeamMember db tid user.id) = true
          · simp [hp, hc, ht, h2] at h
          · simp [hp, hc, ht, h2]
  refine ⟨h1, ?_, ?_⟩
  · rw [h1]
    unfold runningCount
    simp [filter_forceClose_self]
  · rw [h1]
    simp [forceCloseRunning]

/-- C3 witness: the amended theorem applied at the concrete NotFound input. -/
theorem c3_start_error_state_witness :
    (start dbRun 200 alice (some 99) "x" 2).1 =
      { dbRun with entries := forceCloseRunning 200 alice.id dbRun.entries }
    ∧ runningCount (start dbRun 200 alice (some 99) "x" 2).1 alice.id = 0
    ∧ (start dbRun 200 alice (some 99) "x" 2).1.entries.length = dbRun.entries.length :=
  c3_start_error_state dbRun 200 alice 99 "x" 2 ApiErr.notFound rfl

/-- Each start call preserves the single-running-timer invariant. -/
theorem runningInv_start (db : DB) (h : RunningInv db) (now : Nat) (user : AppUser)
    (pid : Option Nat) (d : String) (nid : Nat) :
    RunningInv (start db now user pid d nid).1 := by
  intro u
  rcases start_entries_cases db now user pid d nid with hE | ⟨proj, hE⟩
  · unfold runningCount
    rw [hE]
    by_cases hu : u = user.id
    · rw [hu, filter_forceClose_self]
      exact Nat.zero_le _
    · rw [filter_forceClose_other now user.id u hu]
      exact h u
  · unfold runningCount
    rw [hE, List.filter_append]
    by_cases hu : u = user.id
    · rw [hu, filter_forceClose_self]
      simp
    · rw [filter_forceClose_other now user.id u hu]
      have hx : (user.id == u) = false := by
        simp only [beq_eq_false_iff_ne, ne_eq]
        exact fun hh => hu hh.symm
      simpa [List.filter_cons, hx] using h u

/-- Each stop call preserves the single-running-timer invariant. -/
theorem runningInv_stop (db : DB) (h : RunningInv db) (now u : Nat) :
    RunningInv (stop db now u).1 := by
  intro u'
  unfold stop
  cases hE : (db.entries.filter (fun e => e.user == u && e.is_running)).head? with
  | none => exact h u'
  | some e =>
    simp only
    unfold runningCount
    exact Nat.le_trans (filter_closeFirst_le now u u' db.entries) (h u')

/-- Each timer-engine mutation preserves the single-running-timer invariant. -/
theorem runningInv_apply (db : DB) (h : RunningInv db) (op : TimerOp) :
    RunningInv (applyTimerOp db op) := by
  cases op with
  | startOp now user pid d nid => exact runningInv_start db h now user pid d nid
  | stopOp now u => exact runningInv_stop db h now u

/-- C2: for every user and every sequence of start/stop operations, at most
one TimeEntry with is_running = true exists per user at any point — the
single-running-timer invariant is preserved by every timer-engine operation
and hence by every sequence of them. -/
theorem c2_single_running_timer_invariant (db : DB) (h : RunningInv db)
    (ops : List TimerOp) : RunningInv (runTimerOps db ops) := by
  induction ops generalizing db with
  | nil => exact h
  | cons op rest ih =>
    simp only [runTimerOps, List.foldl_cons]
    exact ih (applyTimerOp db op) (runningInv_apply db h op)

/-- C2 witness: the invariant holds in the concrete one-running-entry state
and is preserved across a concrete stop-then-start sequence. -/
theorem c2_single_running_timer_invariant_witness :
    RunningInv (runTimerOps dbRun
      [TimerOp.stopOp 300 1, TimerOp.startOp 400 alice none "y" 2]) :=
  c2_single_running_timer_invariant dbRun
    (by
      intro u
      unfold runningCount dbRun
      by_cases hu : (1 == u) = true <;> simp [List.filter_cons, hu])
    [TimerOp.stopOp 300 1, TimerOp.startOp 400 alice none "y" 2]

/-- C10: timer operations are isolated per user — start and stop leave every
other user's rows exactly as they were (so the force-close never closes
another user's running entry), and active reads only the caller's rows: its
result depends only on the caller's sub-table. -/
theorem c10_timer_ops_isolated (db db2 : DB) (now : Nat) (user : AppUser)
    (pid : Option Nat) (d : String) (nid : Nat) (u : Nat) :
    ((start db now user pid d nid).1.entries.filter (fun e => !(e.user == user.id)) =
      db.entries.filter (fun e => !(e.user == user.id)))
    ∧ ((stop db now u).1.entries.filter (fun e => !(e.user == u)) =
      db.entries.filter (fun e => !(e.user == u)))
    ∧ (db.entries.filter (fun e => e.user == u) = db2.entries.filter (fun e => e.user == u) →
      active db u = active db2 u) := by
  refine ⟨?_, ?_, ?_⟩
  · rcases start_entries_cases db now user pid d nid with hE | ⟨proj, hE⟩
    · rw [hE, filter_ne_forceClose]
    · rw [hE, List.filter_append]
      simp [filter_ne_forceClose]
  · unfold stop
    cases hE : (db.entries.filter (fun e => e.user == u && e.is_running)).head? with
    | none => rfl
    | some e =>
      simp only
      exact filter_ne_closeFirst now u db.entries
  · intro hf
    unfold active
    rw [filter_user_running, filter_user_running, hf]

/-- C10 witness: the frame conditions applied at a concrete state, with the
read-dependency hypothesis discharged between two stores agreeing on user 1's
rows. -/
theorem c10_timer_ops_isolated_witness :
    ((start dbRun 200 alice none "x" 2).1.entries.filter (fun e => !(e.user == alice.id)) =
      dbRun.entries.filter (fun e => !(e.user == alice.id)))
    ∧ ((stop dbRun 300 1).1.entries.filter (fun e => !(e.user == 1)) =
      dbRun.entries.filter (fun e => !(e.user == 1)))
    ∧ (dbRun.entries.filter (fun e => e.user == 1) = dbRun.entries.filter (fun e => e.user == 1) →
      active dbRun 1 = active dbRun 1) :=
  c10_timer_ops_isolated dbRun dbRun 200 alice none "x" 2 1

/-- Outcome of start when the caller is creator or staff. -/
theorem start_ok_creator_or_staff (db : DB) (now : Nat) (user : AppUser) (pid : Nat)
    (p : Project) (d : String) (nid : Nat) (hp : getProject db pid = some p)
    (h1 : (p.creator == user.id || user.is_staff) = true) :
    (start db now user (some pid) d nid).2 =
      Except.ok ⟨nid, user.id, some p.id, d, now, none, none, true⟩ := by
  unfold start
  simp [hp, h1, TimeEntry.save]

/-- Outcome of start when the caller qualifies through the project's team. -/
theorem start_ok_team (db : DB) (now : Nat) (user : AppUser) (pid : Nat)
    (p : Project) (d : String) (nid : Nat) (tid : Nat) (hp : getProject db pid = some p)
    (h1 : (p.creator == user.id || user.is_staff) = false) (ht : p.team = some tid)
    (h2 : (teamOwnerIs db tid user.id || isTeamMember db tid user.id) = true) :
    (start db now user (some pid) d nid).2 =
      Except.ok ⟨nid, user.id, some p.id, d, now, none, none, true⟩ := by
  unfold start
  simp [hp, h1, ht, h2, TimeEntry.save]

/-- Outcome of start when the project has no team and the caller is neither
creator nor staff. -/
theorem start_forbidden_no_team (db : DB) (now : Nat) (user : AppUser) (pid : Nat)
    (p : Project) (d : String) (nid : Nat) (hp : getProject db pid = some p)
    (h1 : (p.creator == user.id || user.is_staff) = false) (ht : p.team = none) :
    (start db now user (some pid) d nid).2 = Except.error ApiErr.forbidden := by
  unfold start
  simp [hp, h1, ht]

/-- Outcome of start when the caller is neither creator, staff, team owner nor
team member. -/
theorem start_forbidden_not_member (db : DB) (now : Nat) (user : AppUser) (pid : Nat)
    (p : Project) (d : String) (nid : Nat) (tid : Nat) (hp : getProject db pid = some p)
    (h1 : (p.creator == user.id || user.is_staff) = false) (ht : p.team = some tid)
    (h2 : (teamOwnerIs db tid user.id || isTeamMember db tid user.id) = false) :
    (start db now user (some pid) d nid).2 = Except.error ApiErr.forbidden := by
  unfold start
  simp [hp, h1, ht, h2]

/-- C4: with the project resolved, start is permitted (creates and returns the
new entry) if and only if the caller is the project's creator, or staff, or
the project has a team and the caller owns it or has a TeamMember row in it;
otherwise — in particular when the project has no team and the caller is
neither creator nor staff — it fails Forbidden. -/
theorem c4_start_permission (db : DB) (now : Nat) (user : AppUser) (pid : Nat)
    (p : Project) (d : String) (nid : Nat) (hp : getProject db pid = some p) :
    ((∃ e, (start db now user (some pid) d nid).2 = Except.ok e) ↔
      (p.creator = user.id ∨ user.is_staff = true ∨
        ∃ tid, p.team = some tid ∧
          (teamOwnerIs db tid user.id = true ∨ isTeamMember db tid user.id = true)))
    ∧ ((start db now user (some pid) d nid).2 = Except.error ApiErr.forbidden ↔
      ¬(p.creator = user.id ∨ user.is_staff = true ∨
        ∃ tid, p.team = some tid ∧
          (teamOwnerIs db tid user.id = true ∨ isTeamMember db tid user.id = true))) := by
  by_cases h1 : (p.creator == user.id || user.is_staff) = true
  · have h1' : p.creator = user.id ∨ user.is_staff = true := by simpa using h1
    have hC : p.creator = user.id ∨ user.is_staff = true ∨
        ∃ tid, p.team = some tid ∧
          (teamOwnerIs db tid user.id = true ∨ isTeamMember db tid user.id = true) := by
      rcases h1' with h | h
      · exact Or.inl h
      · exact Or.inr (Or.inl h)
    rw [start_ok_creator_or_staff db now user pid p d nid hp h1]
    exact ⟨iff_of_true ⟨_, rfl⟩ hC, iff_of_false (by simp) (fun hn => hn hC)⟩
  · have h1f : (p.creator == user.id || user.is_staff) = false := by
      simp only [Bool.not_eq_true] at h1
      exact h1
    have hnc : ¬p.creator = user.id ∧ ¬user.is_staff = true := by
      simpa [not_or] using h1
    rcases Option.eq_none_or_eq_some p.team with ht | ⟨tid, ht⟩
    · have hNC : ¬(p.creator = user.id ∨ user.is_staff = true ∨
          ∃ tid, p.team = some tid ∧
            (teamOwnerIs db tid user.id = true ∨ isTeamMember db tid user.id = true)) := by
        rintro (h | h | ⟨tid, htid, _⟩)
        · exact hnc.1 h
        · exact hnc.2 h
        · rw [ht] at htid
          exact Option.noConfusion htid
      rw [start_forbidden_no_team db now user pid p d nid hp h1f ht]
      exact ⟨iff_of_false (by simp) hNC, iff_of_true rfl hNC⟩
    · by_cases h2 : (teamOwnerIs db tid user.id || isTeamMember db tid user.id) = true
      · have hC : p.creator = user.id ∨ user.is_staff = true ∨
            ∃ tid2, p.team = some tid2 ∧
              (teamOwnerIs db tid2 user.id = true ∨ isTeamMember db tid2 user.id = true) := by
          refine Or.inr (Or.inr ⟨tid, ht, ?_⟩)
          simpa using h2
        rw [start_ok_team db now user pid p d nid tid hp h1f ht h2]
        exact ⟨iff_of_true ⟨_, rfl⟩ hC, iff_of_false (by simp) (fun hn => hn hC)⟩
      · have h2f : (teamOwnerIs db tid user.id || isTeamMember db tid user.id) = false := by
          simp only [Bool.not_eq_true] at h2
          exact h2
        have h2nc : ¬teamOwnerIs db tid user.id = true ∧ ¬isTeamMember db tid user.id = true := by
          simpa [not_or] using h2
        have hNC : ¬(p.creator = user.id ∨ user.is_staff = true ∨
            ∃ tid2, p.team = some tid2 ∧
              (teamOwnerIs db tid2 user.id = true ∨ isTeamMember db tid2 user.id = true)) := by
          rintro (h | h | ⟨tid2, htid2, hd⟩)
          · exact hnc.1 h
          · exact hnc.2 h
          · rw [ht] at htid2
            cases Option.some.inj htid2
            rcases hd with h | h
            · exact h2nc.1 h
            · exact h2nc.2 h
        rw [start_forbidden_not_member db now user pid p d nid tid hp h1f ht h2f]
        exact ⟨iff_of_false (by simp) hNC, iff_of_true rfl hNC⟩

/-- C4 witness: user 3 is neither creator (user 2 is), nor staff, and the
project has no team — Forbidden, and not permitted. -/
theorem c4_start_permission_witness :
    ((∃ e, (start dbProj 200 bob (some 4) "x" 9).2 = Except.ok e) ↔
      (projNoTeam.creator = bob.id ∨ bob.is_staff = true ∨
        ∃ tid, projNoTeam.team = some tid ∧
          (teamOwnerIs dbProj tid bob.id = true ∨ isTeamMember dbProj tid bob.id = true)))
    ∧ ((start dbProj 200 bob (some 4) "x" 9).2 = Except.error ApiErr.forbidden ↔
      ¬(projNoTeam.creator = bob.id ∨ bob.is_staff = true ∨
        ∃ tid, projNoTeam.team = some tid ∧
          (teamOwnerIs dbProj tid bob.id = true ∨ isTeamMember dbProj tid bob.id = true))) :=
  c4_start_permission dbProj 200 bob 4 projNoTeam "x" 9 rfl

/-- Writing back a row with the same unique token replaces exactly the row
the lookup found, and the lookup afterwards returns the written row. -/
theorem findInvitation_saveInvitation (l : List TeamInvitation) (t : Nat)
    (inv inv2 : TeamInvitation) (h : l.find? (fun i => i.token == t) = some inv)
    (h2 : inv2.token = inv.token) :
    (saveInvitation inv2 l).find? (fun i => i.token == t) = some inv2 := by
  induction l with
  | nil => exact Option.noConfusion h
  | cons i rest ih =>
    by_cases hc : (i.token == t) = true
    · have hi : inv = i := by
        rw [List.find?_cons_of_pos rest hc] at h
        exact (Option.some.inj h).symm
      have hit : (i.token == inv2.token) = true := by
        rw [h2, hi]
        simp
      unfold saveInvitation
      rw [if_pos hit]
      have hp2 : (inv2.token == t) = true := by
        rw [h2, hi]
        exact hc
      exact List.find?_cons_of_pos rest hp2
    · rw [List.find?_cons_of_neg rest hc] at h
      have hin : inv.token = t := by simpa using List.find?_some h
      have hf : (i.token == inv2.token) = false := by
        rw [h2, hin]
        simpa using hc
      unfold saveInvitation
      rw [if_neg (by simp [hf])]
      rw [List.find?_cons_of_neg (p := fun j => j.token == t) (saveInvitation inv2 rest) hc]
      exact ih h

/-- C5 counterexample: an invitation with token 7 exists but has expired
(now = 100, expires_at = 50): getInvitationByToken does not return its detail
— it fails with InvalidState, refuting "regardless of its status or expiry". -/
theorem c5_counterexample_expired_not_returned :
    findInvitation dbInvExpired 7 = some invExpired
    ∧ get_invitation_details dbInvExpired 100 7 = Except.error ApiErr.invalidState :=
  ⟨rfl, rfl⟩

/-- C5 amended: getInvitationByToken(token) fails NotFound iff no invitation
with that token exists; an existing invitation is returned in full iff it is
valid (status pending and now before expires_at), and an existing invalid
invitation yields InvalidState instead of its detail.  No caller identity is
consulted. -/
theorem c5_get_invitation_details_spec (db : DB) (now : Nat) (token : Nat) :
    (get_invitation_details db now token = Except.error ApiErr.notFound ↔
      findInvitation db token = none)
    ∧ (∀ inv, findInvitation db token = some inv →
        (inv.is_valid now = true → get_invitation_details db now token = Except.ok inv)
        ∧ (inv.is_valid now = false →
            get_invitation_details db now token = Except.error ApiErr.invalidState)) := by
  unfold get_invitation_details
  cases hf : findInvitation db token with
  | none =>
    refine ⟨iff_of_true rfl rfl, ?_⟩
    intro inv hinv
    exact Option.noConfusion hinv
  | some inv0 =>
    constructor
    · constructor
      · intro h
        by_cases hv : inv0.is_valid now = true
        · simp [hv] at h
        · simp [hv] at h
      · intro h
        exact Option.noConfusion h
    · intro inv hinv
      cases Option.some.inj hinv
      constructor
      · intro hv
        simp [hv]
      · intro hv
        simp [hv]

/-- C5 witness: the amended theorem applied to a concrete pending, unexpired
invitation, whose detail is returned. -/
theorem c5_get_invitation_details_spec_witness :
    get_invitation_details dbInvPending 100 11 = Except.ok invPending :=
  ((c5_get_invitation_details_spec dbInvPending 100 11).2 invPending rfl).1 rfl

/-- C6 counterexample: an invitation whose stored status is accepted is
subsequently declined — decline succeeds and the stored status changes to
declined, refuting "no subsequent accept or decline operation changes it". -/
theorem c6_counterexample_accepted_then_declined :
    (findInvitation dbInvAccepted 9).map (fun i => i.status) = some "accepted"
    ∧ (decline_invitation dbInvAccepted 9).2 = Except.ok ()
    ∧ (findInvitation (decline_invitation dbInvAccepted 9).1 9).map (fun i => i.status)
        = some "declined" :=
  ⟨rfl, rfl, rfl⟩

/-- C6 amended: accept never changes the status of an invitation that is not
pending (its validity check requires status pending, so it fails InvalidState
and leaves the store untouched); decline, however, stores status declined
unconditionally for any existing invitation — in particular an accepted
invitation can revert to declined. -/
theorem c6_invitation_status_transitions (db : DB) (now : Nat) (user : AppUser)
    (token nid : Nat) (inv : TeamInvitation) (h : findInvitation db token = some inv) :
    (inv.status ≠ "pending" →
      accept_invitation db now user token nid = (db, Except.error ApiErr.invalidState))
    ∧ findInvitation (decline_invitation db token).1 token =
        some { inv with status := "declined" } := by
  constructor
  · intro hs
    have hv : inv.is_valid now = false := by
      unfold TeamInvitation.is_valid
      simp [hs]
    unfold accept_invitation
    rw [h]
    simp [hv]
  · unfold decline_invitation
    rw [h]
    unfold findInvitation at h ⊢
    exact findInvitation_saveInvitation db.invitations token inv _ h rfl

/-- C6 witness: the amended theorem at the concrete accepted invitation:
accept is rejected as invalid, while decline rewrites the status. -/
theorem c6_invitation_status_transitions_witness :
    accept_invitation dbInvAccepted 100 bob 9 77 =
      (dbInvAccepted, Except.error ApiErr.invalidState)
    ∧ findInvitation (decline_invitation dbInvAccepted 9).1 9 =
        some { invAccepted with status := "declined" } :=
  ⟨(c6_invitation_status_transitions dbInvAccepted 100 bob 9 77 invAccepted rfl).1
      (by decide),
   (c6_invitation_status_transitions dbInvAccepted 100 bob 9 77 invAccepted rfl).2⟩

/-- Outcome of accept for an unknown token. -/
theorem accept_notFound (db : DB) (now : Nat) (user : AppUser) (token nid : Nat)
    (hf : findInvitation db token = none) :
    accept_invitation db now user token nid = (db, Except.error ApiErr.notFound) := by
  unfold accept_invitation
  rw [hf]

/-- Outcome of accept for an invitation that is not valid. -/
theorem accept_invalid (db : DB) (now : Nat) (user : AppUser) (token nid : Nat)
    (inv : TeamInvitation) (hf : findInvitation db token = some inv)
    (hv : inv.is_valid now = false) :
    accept_invitation db now user token nid = (db, Except.error ApiErr.invalidState) := by
  unfold accept_invitation
  rw [hf]
  simp [hv]

/-- Outcome of accept when the caller is already a member of the team. -/
theorem accept_conflict (db : DB) (now : Nat) (user : AppUser) (token nid : Nat)
    (inv : TeamInvitation) (hf : findInvitation db token = some inv)
    (hv : inv.is_valid now = true) (hm : isTeamMember db inv.team user.id = true) :
    accept_invitation db now user token nid = (db, Except.error ApiErr.conflict) := by
  unfold accept_invitation
  rw [hf]
  simp [hv, hm]

/-- Outcome of accept in the success path: the membership row is created and
the invitation row is rewritten as accepted. -/
theorem accept_success (db : DB) (now : Nat) (user : AppUser) (token nid : Nat)
    (inv : TeamInvitation) (hf : findInvitation db token = some inv)
    (hv : inv.is_valid now = true) (hm : isTeamMember db inv.team user.id = false) :
    accept_invitation db now user token nid =
      ({ db with
          teamMembers := db.teamMembers ++ [⟨nid, inv.team, user.id, now⟩],
          invitations := saveInvitation
            { inv with status := "accepted", accepted_at := some now }
            db.invitations },
       Except.ok ()) := by
  unfold accept_invitation
  rw [hf]
  simp [hv, hm]

/-- C7: accept(user, token) fails NotFound iff the token is unknown; for a
found invitation it fails InvalidState when not valid (valid = pending and
now before expires_at), fails Conflict when the caller is already a member —
leaving the store, hence the membership count, unchanged — and otherwise
returns ok, appends exactly the one new TeamMember row (the get-or-create
creates it) and stores the invitation as accepted with accepted_at = now; the
caller's email is never consulted (the outcome is identical for any email). -/
theorem c7_accept_invitation_spec (db : DB) (now : Nat) (user : AppUser)
    (token nid : Nat) :
    (accept_invitation db now user token nid = (db, Except.error ApiErr.notFound) ↔
      findInvitation db token = none)
    ∧ (∀ inv, findInvitation db token = some inv →
        (inv.is_valid now = false →
          accept_invitation db now user token nid = (db, Except.error ApiErr.invalidState))
        ∧ (inv.is_valid now = true →
          (isTeamMember db inv.team user.id = true →
            accept_invitation db now user token nid = (db, Except.error ApiErr.conflict))
          ∧ (isTeamMember db inv.team user.id = false →
            (accept_invitation db now user token nid).2 = Except.ok ()
            ∧ (accept_invitation db now user token nid).1.teamMembers =
                db.teamMembers ++ [⟨nid, inv.team, user.id, now⟩]
            ∧ findInvitation (accept_invitation db now user token nid).1 token =
                some { inv with status := "accepted", accepted_at := some now })))
    ∧ (∀ e2, accept_invitation db now ⟨user.id, e2, user.is_staff⟩ token nid =
        accept_invitation db now user token nid) := by
  refine ⟨?_, ?_, fun e2 => rfl⟩
  · constructor
    · intro h
      cases hf : findInvitation db token with
      | none => rfl
      | some inv0 =>
        by_cases hv : inv0.is_valid now = true
        · by_cases hm : isTeamMember db inv0.team user.id = true
          · rw [accept_conflict db now user token nid inv0 hf hv hm] at h
            simp at h
          · have hm' : isTeamMember db inv0.team user.id = false := by
              simpa using hm
            rw [accept_success db now user token nid inv0 hf hv hm'] at h
            simp at h
        · have hv' : inv0.is_valid now = false := by simpa using hv
          rw [accept_invalid db now user token nid inv0 hf hv'] at h
          simp at h
    · intro h
      exact accept_notFound db now user token nid h
  · intro inv hinv
    refine ⟨fun hv => accept_invalid db now user token nid inv hinv hv, fun hv => ?_⟩
    refine ⟨fun hm => accept_conflict db now user token nid inv hinv hv hm, fun hm => ?_⟩
    rw [accept_success db now user token nid inv hinv hv hm]
    refine ⟨rfl, rfl, ?_⟩
    unfold findInvitation
    exact findInvitation_saveInvitation db.invitations token inv _ hinv rfl

/-- C7 witness: the success leg at a concrete pending invitation accepted by
a non-member: ok, one row appended, invitation stored as accepted. -/
theorem c7_accept_invitation_spec_witness :
    (accept_invitation dbInvPending 100 bob 11 42).2 = Except.ok ()
    ∧ (accept_invitation dbInvPending 100 bob 11 42).1.teamMembers =
        dbInvPending.teamMembers ++ [⟨42, invPending.team, bob.id, 100⟩]
    ∧ findInvitation (accept_invitation dbInvPending 100 bob 11 42).1 11 =
        some { invPending with status := "accepted", accepted_at := some 100 } :=
  (((c7_accept_invitation_spec dbInvPending 100 bob 11 42).2.1 invPending rfl).2 rfl).2 rfl

/-- Membership through descending insertion. -/
theorem mem_insertByDesc (x r : BreakdownRow) (l : List BreakdownRow) :
    x ∈ insertByDesc r l ↔ x = r ∨ x ∈ l := by
  induction l with
  | nil => simp [insertByDesc]
  | cons a as ih =>
    unfold insertByDesc
    by_cases h : r.total_seconds > a.total_seconds
    · simp [h]
    · simp only [h, if_false, List.mem_cons, ih]
      tauto

/-- The descending sort is a permutation membership-wise. -/
theorem mem_sortByDesc (x : BreakdownRow) (l : List BreakdownRow) :
    x ∈ sortByDesc l ↔ x ∈ l := by
  induction l with
  | nil => simp [sortByDesc]
  | cons a as ih =>
    unfold sortByDesc at ih ⊢
    simp only [List.foldr_cons, mem_insertByDesc, ih, List.mem_cons]

/-- The project-name key only reads the projects table, not the entries. -/
theorem projectNameKey_entries (db : DB) (es : List TimeEntry) (e : TimeEntry) :
    projectNameKey { db with entries := es } e = projectNameKey db e := rfl

/-- Appending an entry with null end_time (a running entry) leaves the report
queryset unchanged. -/
theorem reportEntries_append_running (db : DB) (u : Nat) (e : TimeEntry)
    (he : e.end_time = none) :
    reportEntries { db with entries := db.entries ++ [e] } u = reportEntries db u := by
  unfold reportEntries
  have h1 : ({ db with entries := db.entries ++ [e] } : DB).entries = db.entries ++ [e] := rfl
  rw [h1, List.filter_append]
  have h2 : [e].filter (fun x => x.user == u && x.end_time.isSome) = [] := by
    simp [List.filter_cons, he]
  rw [h2, List.append_nil]

/-- Every breakdown row carries the formatted string of its own raw seconds. -/
theorem report_rows_formatted (db : DB) (u : Nat) :
    ∀ row ∈ (report db u).project_breakdown, row.hours_str = fmtHMS row.total_seconds := by
  intro row hr
  have hr' : row ∈ sortByDesc (breakdownStats db u) := hr
  rw [mem_sortByDesc] at hr'
  unfold breakdownStats at hr'
  rcases List.mem_map.mp hr' with ⟨k, hk, hfk⟩
  cases hfk
  rfl

/-- C8: report(user) sums duration over exactly the caller's entries with
non-null end_time (running entries, whose end_time is null, never affect the
report); every breakdown row's formatted string is the zero-padded HH:MM:SS
rendering of its raw seconds, with hours unbounded; TimeEntry.save computes
exactly 90 seconds for a T0 to T0+90s interval and fmtHMS 90 = "00:01:30";
and on the concrete single-90-second-entry store the report is "00:01:30"
total with the one breakdown row ("No Project", "00:01:30", 90). -/
theorem c8_report_spec (db : DB) (u : Nat) (e : TimeEntry) (T0 : Nat) :
    (report db u).total_time =
      fmtHMS (((db.entries.filter (fun x => x.user == u && x.end_time.isSome)).filterMap
        (fun x => x.duration)).sum)
    ∧ (e.end_time = none →
        report { db with entries := db.entries ++ [e] } u = report db u)
    ∧ (∀ row ∈ (report db u).project_breakdown, row.hours_str = fmtHMS row.total_seconds)
    ∧ (TimeEntry.save ⟨1, u, none, "w", T0, some (T0 + 90), none, false⟩).duration = some 90
    ∧ fmtHMS 90 = "00:01:30"
    ∧ fmtHMS 360000 = "100:00:00"
    ∧ report dbNinety 1 = ⟨"00:01:30", [⟨"No Project", "00:01:30", 90⟩]⟩ := by
  refine ⟨rfl, ?_, report_rows_formatted db u, ?_, rfl, rfl, rfl⟩
  · intro he
    unfold report breakdownStats
    simp only [projectNameKey_entries, reportEntries_append_running db u e he]
  · unfold TimeEntry.save
    simp only
    norm_num

/-- C8 witness: the running-entry frame condition discharged at a concrete
running entry appended to the concrete store. -/
theorem c8_report_spec_witness :
    report { dbNinety with
      entries := dbNinety.entries ++ [⟨7, 1, none, "r", 700, none, none, true⟩] } 1 =
      report dbNinety 1 :=
  ((c8_report_spec dbNinety 1 ⟨7, 1, none, "r", 700, none, none, true⟩ 0).2.1) rfl

/-- C9: evaluation at the failing input.  Team 1 is owned by user 1 and the
membership table lists user 2's row before the owner's own explicit row; the
listing returns user 2's member entry FIRST and the owner entry second — the
owner is not always the first element (the code's own comment says "Always
include the owner first"); the owner entry does carry role owner and
joined_at = team.created_at, and the other row role member with its own
joined_at, as claimed. -/
theorem c9_owner_not_first :
    list_members dbMembers teamEng =
      [⟨5, 2, "member", 20⟩, ⟨6, 1, "owner", 10⟩] := rfl

end Tickr
